import Mathlib

/-!
Verification development for the universal-read-api repository.

Shallow embedding of `src/lib/scraper.ts` (the HTML→Markdown normalizer and the
title/body extractors), `src/lib/llm.ts` (the extraction-type classifier, the
prompt composition and the model-response recovery of `extractWithGemini` and
`extractWithGeminiRest`), and the `/extract` route handler, together with
theorems checking the specification's claims about them.

Strings are modelled as `List Char`.  Each JavaScript
`String.prototype.replace(regex, …)` pass of the converter is modelled as a
left-to-right scan (`runReplace`) with a matcher implementing that specific
regular expression; replacement text is never rescanned by the pass that
produced it, matching the JS semantics.
-/

namespace UniversalReadApi

abbrev Chars := List Char

/-- The double-quote character (written numerically to keep source plain). -/
def dq : Char := Char.ofNat 34

/-- The single-quote character. -/
def sq : Char := Char.ofNat 39

/-- The backslash character. -/
def bslash : Char := Char.ofNat 92

/-- The backtick character. -/
def btick : Char := Char.ofNat 96

/-- The opening curly brace character. -/
def lbraceC : Char := Char.ofNat 123

/-- The closing curly brace character. -/
def rbraceC : Char := Char.ofNat 125

/-- Horizontal whitespace: the regex character class `[ \t]`. -/
def isHWS (c : Char) : Bool := c = ' ' || c = '\t'

/-- JavaScript `\s`: whitespace code points relevant to this repository's
inputs (the full JS class also contains a few rare Unicode space characters,
with identical treatment). -/
def isJsWS (c : Char) : Bool :=
  c = ' ' || c = '\t' || c = '\n' || c = '\r' || c = '\x0b' || c = '\x0c' ||
  c = '\u00a0' || c = '\ufeff' || c = '\u2028' || c = '\u2029'

/-- Line terminators recognized by the `m` flag's `$` anchor. -/
def isLineTerm (c : Char) : Bool :=
  c = '\n' || c = '\r' || c = '\u2028' || c = '\u2029'

/-- ASCII word characters: the regex class `\w`, used for `\b` boundaries. -/
def isWordChar (c : Char) : Bool :=
  ('a' ≤ c && c ≤ 'z') || ('A' ≤ c && c ≤ 'Z') || ('0' ≤ c && c ≤ '9') || c = '_'

/-- ASCII lowercasing: models case-insensitive (`i` flag) matching and
`String.prototype.toLowerCase` on the ASCII range. -/
def lcAscii (c : Char) : Char :=
  if 'A' ≤ c && c ≤ 'Z' then Char.ofNat (c.toNat + 32) else c

/-- Case-insensitive character equality. -/
def ciEq (a b : Char) : Bool := lcAscii a = lcAscii b

/-- Consume `pat` case-insensitively from the front of `s`, returning the rest. -/
def dropPrefixCI : Chars → Chars → Option Chars
  | [], s => some s
  | _ :: _, [] => none
  | p :: ps, c :: cs => if ciEq p c then dropPrefixCI ps cs else none

/-- Consume `pat` case-sensitively from the front of `s` (the entity-decoding
regexes carry no `i` flag). -/
def dropPrefixLit : Chars → Chars → Option Chars
  | [], s => some s
  | _ :: _, [] => none
  | p :: ps, c :: cs => if p = c then dropPrefixLit ps cs else none

/-- Content before the first case-insensitive occurrence of `pat`, plus the
rest after that occurrence: the effect of a lazy `([\s\S]*?)` followed by a
literal pattern. -/
def splitUntilCI (pat : Chars) : Chars → Option (Chars × Chars)
  | [] => if pat.isEmpty then some ([], []) else none
  | c :: cs =>
    match dropPrefixCI pat (c :: cs) with
    | some rest => some ([], rest)
    | none =>
      match splitUntilCI pat cs with
      | some (pre, rest) => some (c :: pre, rest)
      | none => none

/-- Content before the last case-insensitive occurrence of `pat` (a greedy
`([\s\S]*)` followed by a literal pattern), plus the rest after it. -/
def splitUntilLastCI (pat : Chars) : Chars → Option (Chars × Chars)
  | [] => if pat.isEmpty then some ([], []) else none
  | c :: cs =>
    match splitUntilLastCI pat cs with
    | some (pre, rest) => some (c :: pre, rest)
    | none =>
      match dropPrefixCI pat (c :: cs) with
      | some rest => some ([], rest)
      | none => none

/-- Consume `[^>]*>`: drop everything up to and including the first `>`;
fails when no `>` remains. -/
def dropThroughGt : Chars → Option Chars
  | [] => none
  | c :: cs => if c = '>' then some cs else dropThroughGt cs

/-- One pass of `String.prototype.replace` with a global regex: scan left to
right; on a match, emit the replacement and continue after the match (the
replacement text is not rescanned); otherwise keep the character.  The fuel is
the input length; every matcher consumes at least one character. -/
def replaceScan (m : Chars → Option (Chars × Chars)) : Nat → Chars → Chars
  | 0, s => s
  | _ + 1, [] => []
  | fuel + 1, c :: cs =>
    match m (c :: cs) with
    | some (rep, rest) => rep ++ replaceScan m fuel rest
    | none => c :: replaceScan m fuel cs

def runReplace (m : Chars → Option (Chars × Chars)) (s : Chars) : Chars :=
  replaceScan m s.length s

/-- Every pattern of the converter starts with a fixed first character
(`<` for tag passes, `&` for entity passes); `guarded` factors that out.
The body receives the text after the guard character. -/
def guarded (g : Char) (body : Chars → Option (Chars × Chars)) : Chars → Option (Chars × Chars)
  | [] => none
  | c :: cs => if c = g then body cs else none

/-- The closing tag `</name>` for a tag name. -/
def closeTag (name : Chars) : Chars := '<' :: '/' :: (name ++ ['>'])

/-- A `\b` word boundary holds after a tag name iff the next character is not a
word character (or the input ends). -/
def wordBoundary : Chars → Bool
  | [] => true
  | c :: _ => !(isWordChar c)

/-- `<script\b[^<]*(?:(?!<\/script>)<[^<]*)*<\/script>` (and the style/noscript
variants): from the opening token to the first matching close tag, removed
wholesale.  No match when the close tag never occurs. -/
def scriptLikeBody (name : Chars) (r : Chars) : Option (Chars × Chars) :=
  match dropPrefixCI name r with
  | some r2 =>
    if wordBoundary r2 then
      match splitUntilCI (closeTag name) r2 with
      | some (_, rest) => some ([], rest)
      | none => none
    else none
  | none => none

/-- `<!--[\s\S]*?-->`: an HTML comment, removed. -/
def commentBody (r : Chars) : Option (Chars × Chars) :=
  match dropPrefixLit ['!', '-', '-'] r with
  | some r2 =>
    match splitUntilCI ['-', '-', '>'] r2 with
    | some (_, rest) => some ([], rest)
    | none => none
  | none => none

/-- `<nav\b[^>]*>[\s\S]*?<\/nav>` (and footer/header/aside): the element with
its content up to the first close tag, removed. -/
def blockRemoveBody (name : Chars) (r : Chars) : Option (Chars × Chars) :=
  match dropPrefixCI name r with
  | some r2 =>
    if wordBoundary r2 then
      match dropThroughGt r2 with
      | some r3 =>
        match splitUntilCI (closeTag name) r3 with
        | some (_, rest) => some ([], rest)
        | none => none
      | none => none
    else none
  | none => none

/-- `<name[^>]*>([\s\S]*?)<\/name>` replaced by `mk content`: the shape of the
heading, paragraph, list, blockquote, pre and inline-code conversions. -/
def convertFnBody (name : Chars) (mk : Chars → Chars) (r : Chars) : Option (Chars × Chars) :=
  match dropPrefixCI name r with
  | some r2 =>
    match dropThroughGt r2 with
    | some r3 =>
      match splitUntilCI (closeTag name) r3 with
      | some (content, rest) => some (mk content, rest)
      | none => none
    | none => none
  | none => none

/-- `<br\s*\/?>` / `<hr\s*\/?>` replaced by a fixed string. -/
def brHrBody (name : Chars) (rep : Chars) (r : Chars) : Option (Chars × Chars) :=
  match dropPrefixCI name r with
  | some r2 =>
    match r2.dropWhile isJsWS with
    | '/' :: '>' :: rest => some (rep, rest)
    | '>' :: rest => some (rep, rest)
    | _ => none
  | none => none

/-- `<(strong|b)[^>]*>([\s\S]*?)<\/\1>` (and `(em|i)`): alternatives tried in
order; on failure of the later parts the next alternative is tried, as regex
backtracking does. -/
def wrapAltBody (names : List Chars) (w : Chars) (r : Chars) : Option (Chars × Chars) :=
  match names with
  | [] => none
  | name :: more =>
    match dropPrefixCI name r with
    | some r2 =>
      match dropThroughGt r2 with
      | some r3 =>
        match splitUntilCI (closeTag name) r3 with
        | some (content, rest) => some (w ++ content ++ w, rest)
        | none => wrapAltBody more w r
      | none => wrapAltBody more w r
    | none => wrapAltBody more w r

/-- The suffixes of `s` starting before the first `>`: the candidate positions
the greedy `[^>]*` can leave for a following literal. -/
def suffixesBeforeGt : Chars → List Chars
  | [] => []
  | c :: cs => if c = '>' then [] else (c :: cs) :: suffixesBeforeGt cs

/-- Backtracking for `<a[^>]*href=q([^q]*)q[^>]*>([\s\S]*?)<\/a>` after the
`<a`: candidates for the position of `href=` are tried longest-prefix-first
(greedy `[^>]*`); returns the captured url, the captured text and the rest. -/
def tryHrefCands (q : Char) : List Chars → Option (Chars × Chars × Chars)
  | [] => none
  | cand :: more =>
    match dropPrefixCI ['h', 'r', 'e', 'f', '='] cand with
    | some r =>
      match r with
      | c :: r2 =>
        if c = q then
          let url := r2.takeWhile (fun d => d ≠ q)
          match r2.dropWhile (fun d => d ≠ q) with
          | _ :: r3 =>
            match dropThroughGt r3 with
            | some r4 =>
              match splitUntilCI (closeTag ['a']) r4 with
              | some (text, rest) => some (url, text, rest)
              | none => tryHrefCands q more
            | none => tryHrefCands q more
          | [] => tryHrefCands q more
        else tryHrefCands q more
      | [] => tryHrefCands q more
    | none => tryHrefCands q more

/-- Anchor conversion to `[text](url)` for one quote style. -/
def anchorBody (q : Char) (r : Chars) : Option (Chars × Chars) :=
  match dropPrefixCI ['a'] r with
  | some r2 =>
    match tryHrefCands q (suffixesBeforeGt r2).reverse with
    | some (url, text, rest) =>
      some (['['] ++ text ++ [']', '('] ++ url ++ [')'], rest)
    | none => none
  | none => none

/-- Backtracking for `<img[^>]*alt=q([^q]*)q[^>]*\/?>` after the `<img`:
returns the captured alt text and the rest after the tag's closing `>`. -/
def tryAltCands (q : Char) : List Chars → Option (Chars × Chars)
  | [] => none
  | cand :: more =>
    match dropPrefixCI ['a', 'l', 't', '='] cand with
    | some r =>
      match r with
      | c :: r2 =>
        if c = q then
          let alt := r2.takeWhile (fun d => d ≠ q)
          match r2.dropWhile (fun d => d ≠ q) with
          | _ :: r3 =>
            match dropThroughGt r3 with
            | some r4 => some (alt, r4)
            | none => tryAltCands q more
          | [] => tryAltCands q more
        else tryAltCands q more
      | [] => tryAltCands q more
    | none => tryAltCands q more

/-- Image-with-alt conversion to `[Image: alt]` for one quote style. -/
def imgAltBody (q : Char) (r : Chars) : Option (Chars × Chars) :=
  match dropPrefixCI ['i', 'm', 'g'] r with
  | some r2 =>
    match tryAltCands q (suffixesBeforeGt r2).reverse with
    | some (alt, rest) => some ("[Image: ".data ++ alt ++ [']'], rest)
    | none => none
  | none => none

/-- `<img[^>]*\/?>`: an image without (matched) alt text, removed. -/
def imgBareBody (r : Chars) : Option (Chars × Chars) :=
  match dropPrefixCI ['i', 'm', 'g'] r with
  | some r2 =>
    match dropThroughGt r2 with
    | some rest => some ([], rest)
    | none => none
  | none => none

/-- `<li[^>]*>([\s\S]*?)<\/li>` replaced by `mk content`, used inside list
bodies. -/
def liBody (mk : Chars → Chars) (r : Chars) : Option (Chars × Chars) :=
  convertFnBody ['l', 'i'] mk r

/-- `<ul[^>]*>([\s\S]*?)<\/ul>`: the replacer rewrites each list item of the
content to `- item` with a trailing newline (string replacement, so the `$1`
capture is substituted). -/
def ulBody (r : Chars) : Option (Chars × Chars) :=
  match dropPrefixCI ['u', 'l'] r with
  | some r2 =>
    match dropThroughGt r2 with
    | some r3 =>
      match splitUntilCI (closeTag ['u', 'l']) r3 with
      | some (content, rest) =>
        some (runReplace (guarded '<' (liBody (fun c => '-' :: ' ' :: (c ++ ['\n'])))) content, rest)
      | none => none
    | none => none
  | none => none

/-- The item rewrite inside `<ol>…</ol>` content: the source increments
`listCounter` and returns the template string from a replacement function, so
the `$1` stays literal text and the item content is dropped.  `k` is the
number of items already rewritten in this list. -/
def olItemsScan : Nat → Nat → Chars → Chars
  | 0, _, s => s
  | _ + 1, _, [] => []
  | fuel + 1, k, c :: cs =>
    match guarded '<' (liBody id) (c :: cs) with
    | some (_, rest) =>
      (toString (k + 1)).data ++ ('.' :: ' ' :: '$' :: '1' :: '\n' :: []) ++ olItemsScan fuel (k + 1) rest
    | none => c :: olItemsScan fuel k cs

/-- `<ol[^>]*>([\s\S]*?)<\/ol>`: the replacer resets the counter to zero and
rewrites the items with `olItemsScan`. -/
def olBody (r : Chars) : Option (Chars × Chars) :=
  match dropPrefixCI ['o', 'l'] r with
  | some r2 =>
    match dropThroughGt r2 with
    | some r3 =>
      match splitUntilCI (closeTag ['o', 'l']) r3 with
      | some (content, rest) => some (olItemsScan content.length 0 content, rest)
      | none => none
    | none => none
  | none => none

/-- `content.split("\n").map(line => "> " + line).join("\n")` minus the leading
prefix of the first line (added by the caller). -/
def bqLines : Chars → Chars
  | [] => []
  | c :: cs => if c = '\n' then '\n' :: '>' :: ' ' :: bqLines cs else c :: bqLines cs

/-- `<pre[^>]*><code[^>]*>([\s\S]*?)<\/code><\/pre>`: fenced code block. -/
def preCodeBody (r : Chars) : Option (Chars × Chars) :=
  match dropPrefixCI ['p', 'r', 'e'] r with
  | some r2 =>
    match dropThroughGt r2 with
    | some r3 =>
      match r3 with
      | '<' :: r4 =>
        match dropPrefixCI ['c', 'o', 'd', 'e'] r4 with
        | some r5 =>
          match dropThroughGt r5 with
          | some r6 =>
            match splitUntilCI "</code></pre>".data r6 with
            | some (content, rest) =>
              some ("\n```\n".data ++ content ++ "\n```\n".data, rest)
            | none => none
          | none => none
        | none => none
      | _ => none
    | none => none
  | none => none

/-- The container tag names `div|span|section|article|main`. -/
def containerNames : List Chars :=
  ["div".data, "span".data, "section".data, "article".data, "main".data]

/-- `<(div|span|section|article|main)[^>]*>` replaced by a newline. -/
def containerOpenBody : List Chars → Chars → Option (Chars × Chars)
  | [], _ => none
  | n :: more, r =>
    match dropPrefixCI n r with
    | some r2 =>
      match dropThroughGt r2 with
      | some rest => some (['\n'], rest)
      | none => containerOpenBody more r
    | none => containerOpenBody more r

/-- Helper for the closing-container alternation: after `</`, the name must be
followed immediately by `>`. -/
def closeAlt : List Chars → Chars → Option (Chars × Chars)
  | [], _ => none
  | n :: more, r2 =>
    match dropPrefixCI n r2 with
    | some ('>' :: rest) => some (['\n'], rest)
    | _ => closeAlt more r2

/-- `<\/(div|span|section|article|main)>` replaced by a newline. -/
def containerCloseBody (names : List Chars) (r : Chars) : Option (Chars × Chars) :=
  match r with
  | '/' :: r2 => closeAlt names r2
  | _ => none

/-- `<[^>]+>`: any remaining tag (at least one non-`>` character between the
angle brackets), removed. -/
def anyTagBody (r : Chars) : Option (Chars × Chars) :=
  match r with
  | [] => none
  | c :: cs =>
    if c = '>' then none
    else
      match dropThroughGt cs with
      | some rest => some ([], rest)
      | none => none

/-- A literal entity replacement such as `&nbsp;` → a space; `pat` omits the
leading `&` handled by the guard. -/
def entBody (pat rep : Chars) (r : Chars) : Option (Chars × Chars) :=
  match dropPrefixLit pat r with
  | some rest => some (rep, rest)
  | none => none

def isHexDigit (c : Char) : Bool :=
  ('0' ≤ c && c ≤ '9') || ('a' ≤ c && c ≤ 'f') || ('A' ≤ c && c ≤ 'F')

def isDigitCh (c : Char) : Bool := '0' ≤ c && c ≤ '9'

def hexDigitVal (c : Char) : Nat :=
  if '0' ≤ c && c ≤ '9' then c.toNat - 48
  else if 'a' ≤ c && c ≤ 'f' then c.toNat - 87
  else c.toNat - 55

def hexVal (ds : Chars) : Nat := ds.foldl (fun a c => a * 16 + hexDigitVal c) 0

def decVal (ds : Chars) : Nat := ds.foldl (fun a c => a * 10 + (c.toNat - 48)) 0

/-- `&#x([0-9a-fA-F]+);` → `String.fromCharCode(parseInt(hex, 16))`.  JS keeps
the code unit modulo 2^16; results that are not valid scalar values (lone
surrogates) are modelled as the null character, and digit strings beyond
Number precision are idealized as exact. -/
def hexEntBody (r : Chars) : Option (Chars × Chars) :=
  match r with
  | '#' :: 'x' :: r2 =>
    let digits := r2.takeWhile isHexDigit
    match r2.dropWhile isHexDigit with
    | ';' :: rest =>
      if digits.isEmpty then none else some ([Char.ofNat (hexVal digits % 65536)], rest)
    | _ => none
  | _ => none

/-- `&#(\d+);` → `String.fromCharCode(parseInt(num, 10))`, as above. -/
def decEntBody (r : Chars) : Option (Chars × Chars) :=
  match r with
  | '#' :: r2 =>
    let digits := r2.takeWhile isDigitCh
    match r2.dropWhile isDigitCh with
    | ';' :: rest =>
      if digits.isEmpty then none else some ([Char.ofNat (decVal digits % 65536)], rest)
    | _ => none
  | _ => none

/-- The matcher for `\n{3,}`: at a newline followed by at least two more, the
whole maximal run matches and is replaced by exactly two newlines. -/
def nlRunBody (r : Chars) : Option (Chars × Chars) :=
  if 2 ≤ (r.takeWhile (fun c => c = '\n')).length then
    some (['\n', '\n'], r.dropWhile (fun c => c = '\n'))
  else none

/-- `.replace(/\n{3,}/g, "\n\n")`. -/
def collapseNL (s : Chars) : Chars := runReplace (guarded '\n' nlRunBody) s

/-- `.replace(/^\s+|\s+$/g, "")`: without the `m` flag the anchors are the ends
of the whole string, so this trims leading and trailing whitespace. -/
def trimJs (s : Chars) : Chars := ((s.dropWhile isJsWS).reverse.dropWhile isJsWS).reverse

/-- One step of `.replace(/[ \t]+$/gm, "")`, folded from the right: the flag
records whether the position to the right is a line boundary; a space or tab
whose right context is a boundary is dropped. -/
def stripTrailStep (c : Char) (st : Chars × Bool) : Chars × Bool :=
  if isHWS c && st.2 then st else (c :: st.1, isLineTerm c)

def stripTrailingWS (s : Chars) : Chars := (s.foldr stripTrailStep ([], true)).1

/-- `.replace(/[ \t]+/g, " ")`: every maximal run of spaces/tabs becomes one
space. -/
def collapseHWS : Chars → Chars
  | [] => []
  | [c] => if isHWS c then [' '] else [c]
  | c :: d :: cs =>
    if isHWS c then
      (if isHWS d then collapseHWS (d :: cs) else ' ' :: collapseHWS (d :: cs))
    else c :: collapseHWS (d :: cs)

/-- The tag-rewriting and entity-decoding passes of `htmlToMarkdown`, in the
source's order. -/
def replacePhase (html : Chars) : Chars :=
  let m := runReplace (guarded '<' (scriptLikeBody "script".data)) html
  let m := runReplace (guarded '<' (scriptLikeBody "style".data)) m
  let m := runReplace (guarded '<' (scriptLikeBody "noscript".data)) m
  let m := runReplace (guarded '<' commentBody) m
  let m := runReplace (guarded '<' (blockRemoveBody "nav".data)) m
  let m := runReplace (guarded '<' (blockRemoveBody "footer".data)) m
  let m := runReplace (guarded '<' (blockRemoveBody "header".data)) m
  let m := runReplace (guarded '<' (blockRemoveBody "aside".data)) m
  let m := runReplace (guarded '<' (convertFnBody "h1".data (fun c => '\n' :: '#' :: ' ' :: (c ++ ['\n'])))) m
  let m := runReplace (guarded '<' (convertFnBody "h2".data (fun c => '\n' :: '#' :: '#' :: ' ' :: (c ++ ['\n'])))) m
  let m := runReplace (guarded '<' (convertFnBody "h3".data (fun c => '\n' :: '#' :: '#' :: '#' :: ' ' :: (c ++ ['\n'])))) m
  let m := runReplace (guarded '<' (convertFnBody "h4".data (fun c => '\n' :: '#' :: '#' :: '#' :: '#' :: ' ' :: (c ++ ['\n'])))) m
  let m := runReplace (guarded '<' (convertFnBody "h5".data (fun c => '\n' :: '#' :: '#' :: '#' :: '#' :: '#' :: ' ' :: (c ++ ['\n'])))) m
  let m := runReplace (guarded '<' (convertFnBody "h6".data (fun c => '\n' :: '#' :: '#' :: '#' :: '#' :: '#' :: '#' :: ' ' :: (c ++ ['\n'])))) m
  let m := runReplace (guarded '<' (convertFnBody "p".data (fun c => '\n' :: (c ++ ['\n'])))) m
  let m := runReplace (guarded '<' (brHrBody "br".data ['\n'])) m
  let m := runReplace (guarded '<' (wrapAltBody ["strong".data, "b".data] ['*', '*'])) m
  let m := runReplace (guarded '<' (wrapAltBody ["em".data, "i".data] ['*'])) m
  let m := runReplace (guarded '<' (anchorBody dq)) m
  let m := runReplace (guarded '<' (anchorBody sq)) m
  let m := runReplace (guarded '<' (imgAltBody dq)) m
  let m := runReplace (guarded '<' (imgAltBody sq)) m
  let m := runReplace (guarded '<' imgBareBody) m
  let m := runReplace (guarded '<' ulBody) m
  let m := runReplace (guarded '<' olBody) m
  let m := runReplace (guarded '<' (convertFnBody "blockquote".data (fun c => '>' :: ' ' :: bqLines c))) m
  let m := runReplace (guarded '<' preCodeBody) m
  let m := runReplace (guarded '<' (convertFnBody "pre".data (fun c => "\n```\n".data ++ c ++ "\n```\n".data))) m
  let m := runReplace (guarded '<' (convertFnBody "code".data (fun c => btick :: (c ++ [btick])))) m
  let m := runReplace (guarded '<' (brHrBody "hr".data "\n---\n".data)) m
  let m := runReplace (guarded '<' (containerOpenBody containerNames)) m
  let m := runReplace (guarded '<' (containerCloseBody containerNames)) m
  let m := runReplace (guarded '<' anyTagBody) m
  let m := runReplace (guarded '&' (entBody "nbsp;".data [' '])) m
  let m := runReplace (guarded '&' (entBody "amp;".data ['&'])) m
  let m := runReplace (guarded '&' (entBody "lt;".data ['<'])) m
  let m := runReplace (guarded '&' (entBody "gt;".data ['>'])) m
  let m := runReplace (guarded '&' (entBody "quot;".data [dq])) m
  let m := runReplace (guarded '&' (entBody "#39;".data [sq])) m
  let m := runReplace (guarded '&' (entBody "apos;".data [sq])) m
  let m := runReplace (guarded '&' hexEntBody) m
  let m := runReplace (guarded '&' decEntBody) m
  m

/-- The whitespace cleanup of `htmlToMarkdown`, in the source's order:
newline-run collapse, whole-document trim, per-line trailing-whitespace
removal, horizontal-whitespace collapse. -/
def cleanupPhase (m : Chars) : Chars :=
  collapseHWS (stripTrailingWS (trimJs (collapseNL m)))

/-- `htmlToMarkdown` from src/lib/scraper.ts. -/
def htmlToMarkdown (html : String) : String := ⟨cleanupPhase (replacePhase html.data)⟩

/-- One attempt of `/<title[^>]*>([^<]*)<\/title>/i` at the current position:
the capture is the maximal run of non-`<` characters after the opening tag,
and the close tag must follow it immediately. -/
def titleMatchAt (s : Chars) : Option Chars :=
  match s with
  | [] => none
  | c :: r =>
    if c = '<' then
      match dropPrefixCI "title".data r with
      | some r2 =>
        match dropThroughGt r2 with
        | some r3 =>
          match dropPrefixCI "</title>".data (r3.dropWhile (fun d => d ≠ '<')) with
          | some _ => some (r3.takeWhile (fun d => d ≠ '<'))
          | none => none
        | none => none
      | none => none
    else none

/-- Scan for the first (leftmost) title match. -/
def findTitle : Nat → Chars → Option Chars
  | 0, _ => none
  | _ + 1, [] => none
  | fuel + 1, c :: cs =>
    match titleMatchAt (c :: cs) with
    | some cap => some cap
    | none => findTitle fuel cs

/-- `extractTitle` from src/lib/scraper.ts: the first `<title>` element's text,
trimmed, or the literal `"Untitled"`. -/
def extractTitle (html : String) : String :=
  match findTitle (html.data.length + 1) html.data with
  | some cap => ⟨trimJs cap⟩
  | none => "Untitled"

/-- One attempt of `/<body[^>]*>([\s\S]*)<\/body>/i` at the current position:
the capture is greedy, so it reaches the last `</body>` of the input. -/
def bodyMatchAt (s : Chars) : Option Chars :=
  match s with
  | [] => none
  | c :: r =>
    if c = '<' then
      match dropPrefixCI "body".data r with
      | some r2 =>
        match dropThroughGt r2 with
        | some r3 =>
          match splitUntilLastCI "</body>".data r3 with
          | some (content, _) => some content
          | none => none
        | none => none
      | none => none
    else none

/-- Scan for the first position where the body pattern matches. -/
def findBody : Nat → Chars → Option Chars
  | 0, _ => none
  | _ + 1, [] => none
  | fuel + 1, c :: cs =>
    match bodyMatchAt (c :: cs) with
    | some cap => some cap
    | none => findBody fuel cs

/-- `extractBody` from src/lib/scraper.ts: the `<body>` content, or the whole
document when the pattern does not match. -/
def extractBody (html : String) : String :=
  match findBody (html.data.length + 1) html.data with
  | some content => ⟨content⟩
  | none => html

/-- The spec's Normalized Document record. -/
structure NormalizedDoc where
  markdownText : String
  title : String
deriving DecidableEq, Repr

/-- The normalization pipeline of `scrapeUrl` after the fetch: title extraction,
body extraction and conversion to Markdown. -/
def normalize (rawMarkup : String) : NormalizedDoc :=
  { markdownText := htmlToMarkdown (extractBody rawMarkup)
    title := extractTitle rawMarkup }

structure ScrapeResult where
  markdown : String
  title : String
  url : String
deriving DecidableEq, Repr

/-- The fetch collaborator's observable result: `response.ok`, `response.status`,
`response.statusText` and the response text. -/
structure HttpResponse where
  ok : Bool
  status : Nat
  statusText : String
  body : String

/-- `scrapeUrl` from src/lib/scraper.ts with the fetch modelled as an input:
a non-ok response throws `Failed to fetch …`, otherwise the page is normalized. -/
def scrapeUrl (response : HttpResponse) (url : String) : Except String ScrapeResult :=
  if !response.ok then
    .error ("Failed to fetch " ++ url ++ ": " ++ toString response.status ++ " " ++ response.statusText)
  else
    .ok { markdown := htmlToMarkdown (extractBody response.body)
          title := extractTitle response.body
          url := url }


/-! ## JSON values

`src/lib/llm.ts` serializes caller schemas (`Record<string, unknown>`) with
`JSON.stringify` and parses model output with `JSON.parse`; both work on JSON
values, modelled here with mutual inductives so that all functions over them
are structurally recursive. -/

mutual
inductive Json where
  | null : Json
  | bool (b : Bool) : Json
  | num (q : Rat) : Json
  | str (s : String) : Json
  | arr (elems : JsonList) : Json
  | obj (fields : JsonFields) : Json

inductive JsonList where
  | nil : JsonList
  | cons (hd : Json) (tl : JsonList) : JsonList

inductive JsonFields where
  | nil : JsonFields
  | cons (key : String) (val : Json) (tl : JsonFields) : JsonFields
end

/-- JSON string escaping as performed by `JSON.stringify`. -/
def escapeJsonChar (c : Char) : Chars :=
  if c = dq then [bslash, dq]
  else if c = bslash then [bslash, bslash]
  else if c = '\x08' then [bslash, 'b']
  else if c = '\t' then [bslash, 't']
  else if c = '\n' then [bslash, 'n']
  else if c = '\x0c' then [bslash, 'f']
  else if c = '\r' then [bslash, 'r']
  else if c.toNat < 32 then
    [bslash, 'u', '0', '0', Nat.digitChar (c.toNat / 16), Nat.digitChar (c.toNat % 16)]
  else [c]

def escapeJson (s : String) : String := ⟨s.data.foldr (fun c acc => escapeJsonChar c ++ acc) []⟩

/-- A JSON string literal: quoted and escaped. -/
def quoteJson (s : String) : String := ⟨dq :: (escapeJson s).data ++ [dq]⟩

/-- JS number-to-string, exact on integers (the JS double-to-string algorithm
is idealized for non-integers, which no claim exercises). -/
def numToString (q : Rat) : String := if q.den = 1 then toString q.num else toString q

mutual
/-- `JSON.stringify` in compact form, as `detectExtractionType` uses it. -/
def stringify : Json → String
  | .null => "null"
  | .bool b => if b then "true" else "false"
  | .num q => numToString q
  | .str s => quoteJson s
  | .arr xs => "[" ++ stringifyList xs ++ "]"
  | .obj fs => "\x7b" ++ stringifyFields fs ++ "\x7d"

def stringifyList : JsonList → String
  | .nil => ""
  | .cons h .nil => stringify h
  | .cons h (.cons h2 t) => stringify h ++ "," ++ stringifyList (.cons h2 t)

def stringifyFields : JsonFields → String
  | .nil => ""
  | .cons k v .nil => quoteJson k ++ ":" ++ stringify v
  | .cons k v (.cons k2 v2 t) =>
    quoteJson k ++ ":" ++ stringify v ++ "," ++ stringifyFields (.cons k2 v2 t)
end

def spaces (n : Nat) : String := ⟨List.replicate n ' '⟩

mutual
/-- `JSON.stringify(x, null, 2)`: two-space indented pretty form, used when the
caller schema is embedded into the prompts. -/
def stringifyP : Nat → Json → String
  | _, .null => "null"
  | _, .bool b => if b then "true" else "false"
  | _, .num q => numToString q
  | _, .str s => quoteJson s
  | _, .arr .nil => "[]"
  | i, .arr (.cons h t) =>
    "[\n" ++ stringifyPList (i + 2) (.cons h t) ++ "\n" ++ spaces i ++ "]"
  | _, .obj .nil => "\x7b\x7d"
  | i, .obj (.cons k v t) =>
    "\x7b\n" ++ stringifyPFields (i + 2) (.cons k v t) ++ "\n" ++ spaces i ++ "\x7d"

def stringifyPList : Nat → JsonList → String
  | _, .nil => ""
  | i, .cons h .nil => spaces i ++ stringifyP i h
  | i, .cons h (.cons h2 t) =>
    spaces i ++ stringifyP i h ++ ",\n" ++ stringifyPList i (.cons h2 t)

def stringifyPFields : Nat → JsonFields → String
  | _, .nil => ""
  | i, .cons k v .nil => spaces i ++ quoteJson k ++ ": " ++ stringifyP i v
  | i, .cons k v (.cons k2 v2 t) =>
    spaces i ++ quoteJson k ++ ": " ++ stringifyP i v ++ ",\n" ++ stringifyPFields i (.cons k2 v2 t)
end

def stringifyPretty (j : Json) : String := stringifyP 0 j

/-- `String.prototype.toLowerCase`, ASCII range. -/
def lowerStr (s : String) : String := ⟨s.data.map lcAscii⟩

/-- `String.prototype.includes`: case-sensitive substring containment. -/
def containsSub (pat : Chars) : Chars → Bool
  | [] => (dropPrefixLit pat []).isSome
  | c :: cs => (dropPrefixLit pat (c :: cs)).isSome || containsSub pat cs

def strIncludes (hay pat : String) : Bool := containsSub pat.data hay.data

/-! ## Extraction types and the classifier -/

/-- The `ExtractionType` union from src/lib/llm.ts. -/
inductive ExtractionType where
  | auto | article | product | contact | event | job | recipe | review
deriving DecidableEq, Repr

/-- The string each union member denotes. -/
def ExtractionType.name : ExtractionType → String
  | .auto => "auto"
  | .article => "article"
  | .product => "product"
  | .contact => "contact"
  | .event => "event"
  | .job => "job"
  | .recipe => "recipe"
  | .review => "review"

/-- `detectExtractionType` from src/lib/llm.ts: keyword tests against the
lowercased serialized schema, in the source's order, first match wins. -/
def detectExtractionType (schema : Option Json) : ExtractionType :=
  match schema with
  | none => .auto
  | some schemaJson =>
    let schemaStr := lowerStr (stringify schemaJson)
    if strIncludes schemaStr "price" || strIncludes schemaStr "sku" ||
        strIncludes schemaStr "availability" then .product
    else if strIncludes schemaStr "author" &&
        (strIncludes schemaStr "publishdate" || strIncludes schemaStr "content" ||
          strIncludes schemaStr "article") then .article
    else if strIncludes schemaStr "email" || strIncludes schemaStr "phone" ||
        strIncludes schemaStr "linkedin" then .contact
    else if strIncludes schemaStr "startdate" || strIncludes schemaStr "enddate" ||
        strIncludes schemaStr "venue" || strIncludes schemaStr "registration" then .event
    else if strIncludes schemaStr "salary" || strIncludes schemaStr "requirements" ||
        strIncludes schemaStr "employmenttype" then .job
    else if strIncludes schemaStr "ingredients" || strIncludes schemaStr "cooktime" ||
        strIncludes schemaStr "servings" then .recipe
    else if strIncludes schemaStr "rating" &&
        (strIncludes schemaStr "review" || strIncludes schemaStr "pros") then .review
    else .auto

/-- The `EXTRACTION_PROMPTS` catalog from src/lib/llm.ts, transcribed verbatim. -/
def EXTRACTION_PROMPTS : ExtractionType → String
  | .auto => "You are a precise data extraction engine. Analyze the content and extract structured data.

RULES:
1. Return ONLY valid JSON - no explanations, no markdown code blocks.
2. If a JSON schema is provided, extract data according to that schema exactly.
3. If no schema is provided, create a structured summary with:
   - title: The page title
   - summary: A 1-2 sentence description
   - mainContent: Key content extracted
   - entities: People, organizations, or things mentioned
   - links: Important URLs found
4. Use null for fields you cannot extract. Never invent data."
  | .article => "You are an expert article extraction engine. Extract news/blog article data.

SCHEMA (use if no custom schema provided):
\x7b
  \"title\": \"Article headline\",
  \"author\": \"Author name(s)\",
  \"publishDate\": \"ISO date or relative date string\",
  \"summary\": \"2-3 sentence summary of the article\",
  \"content\": \"Main article body text\",
  \"tags\": [\"topic tags extracted from content\"],
  \"readingTimeMinutes\": \"estimated reading time\"
\x7d

RULES:
1. Return ONLY valid JSON.
2. Extract the author even if it says \"By [Name]\" or \"Written by [Name]\".
3. For dates, prefer ISO format (YYYY-MM-DD) when possible.
4. Tags should be inferred from content if not explicitly listed.
5. Use null for missing fields."
  | .product => "You are an expert e-commerce data extraction engine. Extract product information.

SCHEMA (use if no custom schema provided):
\x7b
  \"name\": \"Product name\",
  \"price\": \"Current price as string with currency\",
  \"originalPrice\": \"Original price if on sale\",
  \"currency\": \"Currency code (USD, EUR, etc.)\",
  \"rating\": \"Rating as number (e.g., 4.5)\",
  \"reviewCount\": \"Number of reviews\",
  \"availability\": \"In Stock / Out of Stock / Limited\",
  \"description\": \"Product description\",
  \"features\": [\"List of key features\"],
  \"specifications\": \x7b\"key\": \"value pairs\"\x7d,
  \"brand\": \"Brand name\",
  \"sku\": \"Product SKU/ID if available\"
\x7d

RULES:
1. Return ONLY valid JSON.
2. Extract prices with currency symbols intact.
3. Convert rating to a number on a 5-point scale.
4. Features should be bullet points from description.
5. Use null for missing fields."
  | .contact => "You are an expert contact information extraction engine. Find people and business contacts.

SCHEMA (use if no custom schema provided):
\x7b
  \"contacts\": [
    \x7b
      \"name\": \"Full name\",
      \"title\": \"Job title\",
      \"company\": \"Company name\",
      \"email\": \"Email address\",
      \"phone\": \"Phone number(s)\",
      \"address\": \"Physical address\",
      \"linkedin\": \"LinkedIn URL\",
      \"twitter\": \"Twitter handle\"
    \x7d
  ],
  \"company\": \x7b
    \"name\": \"Company name\",
    \"address\": \"Company address\",
    \"phone\": \"Main phone\",
    \"email\": \"General email\",
    \"website\": \"Website URL\"
  \x7d
\x7d

RULES:
1. Return ONLY valid JSON.
2. Extract ALL contact information found on the page.
3. Normalize phone numbers if possible.
4. Include social media handles without the @ symbol.
5. Use null for missing fields."
  | .event => "You are an expert event data extraction engine. Extract event and scheduling information.

SCHEMA (use if no custom schema provided):
\x7b
  \"name\": \"Event name\",
  \"description\": \"Event description\",
  \"startDate\": \"ISO datetime\",
  \"endDate\": \"ISO datetime\",
  \"timezone\": \"Timezone\",
  \"location\": \x7b
    \"name\": \"Venue name\",
    \"address\": \"Full address\",
    \"city\": \"City\",
    \"country\": \"Country\",
    \"virtual\": \"true/false if online event\",
    \"url\": \"Virtual event URL\"
  \x7d,
  \"organizer\": \"Organizer name\",
  \"price\": \"Ticket price or Free\",
  \"registrationUrl\": \"Registration/ticket URL\",
  \"speakers\": [\"Speaker names\"],
  \"tags\": [\"event categories\"]
\x7d

RULES:
1. Return ONLY valid JSON.
2. Convert dates to ISO 8601 format when possible.
3. Identify if event is virtual, in-person, or hybrid.
4. Extract pricing tiers if multiple ticket types exist.
5. Use null for missing fields."
  | .job => "You are an expert job posting extraction engine. Extract job listing information.

SCHEMA (use if no custom schema provided):
\x7b
  \"title\": \"Job title\",
  \"company\": \"Company name\",
  \"location\": \"Job location\",
  \"remote\": \"true/false/hybrid\",
  \"salary\": \x7b
    \"min\": \"Minimum salary\",
    \"max\": \"Maximum salary\",
    \"currency\": \"Currency code\",
    \"period\": \"yearly/monthly/hourly\"
  \x7d,
  \"employmentType\": \"Full-time/Part-time/Contract\",
  \"experienceLevel\": \"Entry/Mid/Senior/Executive\",
  \"description\": \"Job description summary\",
  \"requirements\": [\"Required qualifications\"],
  \"benefits\": [\"Listed benefits\"],
  \"skills\": [\"Required/preferred skills\"],
  \"applicationUrl\": \"Apply URL\",
  \"postedDate\": \"When job was posted\"
\x7d

RULES:
1. Return ONLY valid JSON.
2. Infer remote status from location or description.
3. Parse salary ranges into min/max values.
4. Separate hard requirements from nice-to-haves.
5. Use null for missing fields."
  | .recipe => "You are an expert recipe extraction engine. Extract cooking recipe information.

SCHEMA (use if no custom schema provided):
\x7b
  \"name\": \"Recipe name\",
  \"description\": \"Brief description\",
  \"author\": \"Recipe author\",
  \"prepTime\": \"Prep time in minutes\",
  \"cookTime\": \"Cook time in minutes\",
  \"totalTime\": \"Total time in minutes\",
  \"servings\": \"Number of servings\",
  \"difficulty\": \"Easy/Medium/Hard\",
  \"ingredients\": [
    \x7b\"item\": \"ingredient name\", \"amount\": \"quantity\", \"unit\": \"unit\"\x7d
  ],
  \"instructions\": [\"Step-by-step instructions\"],
  \"nutrition\": \x7b
    \"calories\": \"per serving\",
    \"protein\": \"grams\",
    \"carbs\": \"grams\",
    \"fat\": \"grams\"
  \x7d,
  \"tags\": [\"cuisine type\", \"diet tags\"],
  \"rating\": \"Rating if available\"
\x7d

RULES:
1. Return ONLY valid JSON.
2. Separate ingredient amounts from descriptions.
3. Number the instruction steps.
4. Convert time strings to minutes.
5. Use null for missing fields."
  | .review => "You are an expert review extraction engine. Extract product/service review information.

SCHEMA (use if no custom schema provided):
\x7b
  \"itemReviewed\": \"Product or service name\",
  \"overallRating\": \"Average rating\",
  \"totalReviews\": \"Number of reviews\",
  \"ratingBreakdown\": \x7b
    \"5star\": \"percentage or count\",
    \"4star\": \"percentage or count\",
    \"3star\": \"percentage or count\",
    \"2star\": \"percentage or count\",
    \"1star\": \"percentage or count\"
  \x7d,
  \"reviews\": [
    \x7b
      \"author\": \"Reviewer name\",
      \"rating\": \"Individual rating\",
      \"date\": \"Review date\",
      \"title\": \"Review title\",
      \"content\": \"Review text\",
      \"helpful\": \"Helpful votes count\",
      \"verified\": \"true/false\"
    \x7d
  ],
  \"pros\": [\"Common positive points\"],
  \"cons\": [\"Common negative points\"]
\x7d

RULES:
1. Return ONLY valid JSON.
2. Extract individual reviews if visible.
3. Identify verified purchase reviews.
4. Summarize common pros/cons across reviews.
5. Use null for missing fields."

/-! ## JSON.parse -/

/-- JSON insignificant whitespace. -/
def isJsonWS (c : Char) : Bool := c = ' ' || c = '\t' || c = '\n' || c = '\r'

def skipWs (s : Chars) : Chars := s.dropWhile isJsonWS

def hex4Val (a b c d : Char) : Nat :=
  ((hexDigitVal a * 16 + hexDigitVal b) * 16 + hexDigitVal c) * 16 + hexDigitVal d

/-- The character denoted by a one-letter JSON escape. -/
def escCharFor (e : Char) : Option Char :=
  if e = dq then some dq
  else if e = bslash then some bslash
  else if e = '/' then some '/'
  else if e = 'b' then some '\x08'
  else if e = 'f' then some '\x0c'
  else if e = 'n' then some '\n'
  else if e = 'r' then some '\r'
  else if e = 't' then some '\t'
  else none

/-- Parse the remainder of a JSON string literal (after the opening quote):
the decoded characters and the rest after the closing quote.  Unescaped
control characters are rejected, as `JSON.parse` does; a `\uXXXX` escape
denotes a UTF-16 unit, with units that are not scalar values modelled as the
null character. -/
def parseJStrBody : Chars → Option (Chars × Chars)
  | [] => none
  | c :: cs =>
    if c = dq then some ([], cs)
    else if c = bslash then
      match cs with
      | [] => none
      | e :: cs2 =>
        if e = 'u' then
          match cs2 with
          | h1 :: h2 :: h3 :: h4 :: cs3 =>
            if isHexDigit h1 && isHexDigit h2 && isHexDigit h3 && isHexDigit h4 then
              match parseJStrBody cs3 with
              | some (out, rest) => some (Char.ofNat (hex4Val h1 h2 h3 h4) :: out, rest)
              | none => none
            else none
          | _ => none
        else
          match escCharFor e with
          | some ec =>
            match parseJStrBody cs2 with
            | some (out, rest) => some (ec :: out, rest)
            | none => none
          | none => none
    else if c.toNat < 32 then none
    else
      match parseJStrBody cs with
      | some (out, rest) => some (c :: out, rest)
      | none => none

def takeDigits (s : Chars) : Chars × Chars := (s.takeWhile isDigitCh, s.dropWhile isDigitCh)

/-- The integer part `0|[1-9][0-9]*` of a JSON number. -/
def parseIntPart : Chars → Option (Nat × Chars)
  | [] => none
  | c :: cs =>
    if c = '0' then some (0, cs)
    else if isDigitCh c then
      let p := takeDigits (c :: cs)
      some (decVal p.1, p.2)
    else none

/-- The optional fraction part `(\.[0-9]+)?`. -/
def parseFracPart : Chars → Option (Chars × Chars)
  | [] => some ([], [])
  | c :: cs =>
    if c = '.' then
      let p := takeDigits cs
      if p.1.isEmpty then none else some (p.1, p.2)
    else some ([], c :: cs)

/-- The optional exponent part `([eE][+-]?[0-9]+)?`, as a signed value. -/
def parseExpPart : Chars → Option (Int × Chars)
  | [] => some (0, [])
  | c :: cs =>
    if c = 'e' || c = 'E' then
      match cs with
      | sgn :: r =>
        if sgn = '+' then
          let p := takeDigits r
          if p.1.isEmpty then none else some ((decVal p.1 : Int), p.2)
        else if sgn = '-' then
          let p := takeDigits r
          if p.1.isEmpty then none else some (-(decVal p.1 : Int), p.2)
        else
          let p := takeDigits cs
          if p.1.isEmpty then none else some ((decVal p.1 : Int), p.2)
      | [] => none
    else some (0, c :: cs)

/-- Parse a JSON number; the exact rational value. -/
def parseJNum (s : Chars) : Option (Rat × Chars) :=
  let sgn : Bool × Chars :=
    match s with
    | c :: cs => if c = '-' then (true, cs) else (false, s)
    | [] => (false, [])
  match parseIntPart sgn.2 with
  | none => none
  | some (ip, r1) =>
    match parseFracPart r1 with
    | none => none
    | some (fds, r2) =>
      match parseExpPart r2 with
      | none => none
      | some (ex, r3) =>
        let base : Rat := (ip : Rat) + (decVal fds : Rat) / ((10 : Rat) ^ fds.length)
        let scaled : Rat :=
          if 0 ≤ ex then base * (10 : Rat) ^ ex.toNat else base / ((10 : Rat) ^ (-ex).toNat)
        some (if sgn.1 then -scaled else scaled, r3)

mutual
/-- `JSON.parse`'s value grammar, by recursion on fuel (any fuel at least
twice the input length suffices). -/
def parseVal : Nat → Chars → Option (Json × Chars)
  | 0, _ => none
  | fuel + 1, s =>
    match skipWs s with
    | [] => none
    | c :: cs =>
      if c = lbraceC then
        match skipWs cs with
        | d :: r2 =>
          if d = rbraceC then some (.obj .nil, r2)
          else
            match parseMembers fuel (d :: r2) with
            | some (fs, rest) => some (.obj fs, rest)
            | none => none
        | [] => none
      else if c = '[' then
        match skipWs cs with
        | d :: r2 =>
          if d = ']' then some (.arr .nil, r2)
          else
            match parseElems fuel (d :: r2) with
            | some (xs, rest) => some (.arr xs, rest)
            | none => none
        | [] => none
      else if c = dq then
        match parseJStrBody cs with
        | some (out, rest) => some (.str ⟨out⟩, rest)
        | none => none
      else if c = 't' then
        match dropPrefixLit "rue".data cs with
        | some rest => some (.bool true, rest)
        | none => none
      else if c = 'f' then
        match dropPrefixLit "alse".data cs with
        | some rest => some (.bool false, rest)
        | none => none
      else if c = 'n' then
        match dropPrefixLit "ull".data cs with
        | some rest => some (.null, rest)
        | none => none
      else
        match parseJNum (c :: cs) with
        | some (q, rest) => some (.num q, rest)
        | none => none

/-- One or more array elements separated by commas, up to `]`. -/
def parseElems : Nat → Chars → Option (JsonList × Chars)
  | 0, _ => none
  | fuel + 1, s =>
    match parseVal fuel s with
    | some (v, rest) =>
      match skipWs rest with
      | ',' :: r2 =>
        match parseElems fuel r2 with
        | some (xs, rest2) => some (.cons v xs, rest2)
        | none => none
      | ']' :: r2 => some (.cons v .nil, r2)
      | _ => none
    | none => none

/-- One or more object members separated by commas, up to the closing brace. -/
def parseMembers : Nat → Chars → Option (JsonFields × Chars)
  | 0, _ => none
  | fuel + 1, s =>
    match skipWs s with
    | c :: cs =>
      if c = dq then
        match parseJStrBody cs with
        | some (key, r1) =>
          match skipWs r1 with
          | ':' :: r2 =>
            match parseVal fuel r2 with
            | some (v, r3) =>
              match skipWs r3 with
              | ',' :: r4 =>
                match parseMembers fuel r4 with
                | some (fs, rest) => some (.cons ⟨key⟩ v fs, rest)
                | none => none
              | d :: r4 =>
                if d = rbraceC then some (.cons ⟨key⟩ v .nil, r4) else none
              | [] => none
            | none => none
          | _ => none
        | none => none
      else none
    | [] => none
end

/-- `JSON.parse`: one value surrounded by nothing but whitespace, or failure. -/
def parseJson (s : String) : Option Json :=
  match parseVal (2 * s.data.length + 4) s.data with
  | some (v, rest) => if (skipWs rest).isEmpty then some v else none
  | none => none

/-! ## Model-response recovery and prompt composition -/

/-- The matcher for  ```json  or  ```  followed by an optional newline;
`tail` is the pattern after the first backtick (handled by the guard). -/
def fenceBody (tail : Chars) (r : Chars) : Option (Chars × Chars) :=
  match dropPrefixLit tail r with
  | some rest =>
    match rest with
    | '\n' :: r2 => some ([], r2)
    | _ => some ([], rest)
  | none => none

/-- The code-fence cleanup both extraction functions apply to the model's
response text before parsing:  ```json\n?  removed globally, then  ```\n?
removed globally, then trim. -/
def cleanFence (text : String) : String :=
  let m := runReplace (guarded btick (fenceBody (btick :: btick :: 'j' :: 's' :: 'o' :: 'n' :: []))) text.data
  let m := runReplace (guarded btick (fenceBody (btick :: btick :: []))) m
  ⟨trimJs m⟩

/-- The fallback object `{ rawExtraction: text, parseError: … }`. -/
def parseErrorFallback (text : String) : Json :=
  .obj (.cons "rawExtraction" (.str text)
    (.cons "parseError" (.str "Failed to parse as JSON") .nil))

/-- The parse/recover step of `extractWithGemini` (SDK path): parse the
cleaned response; on failure wrap the raw text instead of throwing. -/
def sdkParseRecovery (text : String) : Json :=
  match parseJson (cleanFence text) with
  | some v => v
  | none => parseErrorFallback text

/-- The parse/recover step of `extractWithGeminiRest` (duplicated in the
source). -/
def restParseRecovery (text : String) : Json :=
  match parseJson (cleanFence text) with
  | some v => v
  | none => parseErrorFallback text

structure ExtractionOptions where
  markdown : String
  schema : Option Json
  title : String
  extractionType : Option ExtractionType

structure GenerationConfig where
  temperature : Rat
  maxOutputTokens : Nat
  responseMimeType : String
deriving DecidableEq, Repr

/-- The `generationConfig` of `extractWithGemini` (SDK path). -/
def sdkGenerationConfig : GenerationConfig :=
  { temperature := (1 : Rat) / 10, maxOutputTokens := 8192, responseMimeType := "application/json" }

/-- The `generationConfig` of `extractWithGeminiRest`. -/
def restGenerationConfig : GenerationConfig :=
  { temperature := (1 : Rat) / 10, maxOutputTokens := 8192, responseMimeType := "application/json" }

/-- `requestedType || detectExtractionType(schema)` in `extractWithGemini`
(every member of the string union is truthy). -/
def sdkSelectType (requestedType : Option ExtractionType) (schema : Option Json) : ExtractionType :=
  match requestedType with
  | some t => t
  | none => detectExtractionType schema

/-- The same selection in `extractWithGeminiRest`. -/
def restSelectType (requestedType : Option ExtractionType) (schema : Option Json) : ExtractionType :=
  match requestedType with
  | some t => t
  | none => detectExtractionType schema

/-- The user prompt built by `extractWithGemini`. -/
def sdkUserPrompt (title : String) (etype : ExtractionType) (schema : Option Json)
    (markdown : String) : String :=
  "Page Title: " ++ title ++ "\n" ++
  "Detected Content Type: " ++ etype.name ++ "\n\n" ++
  (match schema with
   | some j => "CUSTOM SCHEMA (use this instead of default):\n" ++ stringifyPretty j ++ "\n\n"
   | none => "") ++
  "CONTENT TO EXTRACT FROM:\n\n" ++ markdown

/-- The user prompt built by `extractWithGeminiRest`. -/
def restUserPrompt (title : String) (etype : ExtractionType) (schema : Option Json)
    (markdown : String) : String :=
  "Page Title: " ++ title ++ "\n" ++
  "Detected Content Type: " ++ etype.name ++ "\n\n" ++
  (match schema with
   | some j => "CUSTOM SCHEMA (use this instead of default):\n" ++ stringifyPretty j ++ "\n\n"
   | none => "") ++
  "CONTENT TO EXTRACT FROM:\n\n" ++ markdown

/-- The single instruction payload `systemPrompt + "\n\n" + userPrompt` the SDK
path sends. -/
def sdkPayload (opts : ExtractionOptions) : String :=
  let etype := sdkSelectType opts.extractionType opts.schema
  EXTRACTION_PROMPTS etype ++ "\n\n" ++ sdkUserPrompt opts.title etype opts.schema opts.markdown

/-- The single instruction payload the REST path sends. -/
def restPayload (opts : ExtractionOptions) : String :=
  let etype := restSelectType opts.extractionType opts.schema
  EXTRACTION_PROMPTS etype ++ "\n\n" ++ restUserPrompt opts.title etype opts.schema opts.markdown

/-- The model collaborator's observable reply: response text and reported
token usage. -/
structure ModelReply where
  text : String
  totalTokenCount : Option Nat

structure ExtractionResult where
  data : Json
  model : String
  tokensUsed : Option Nat
  extractionType : ExtractionType

/-- `extractWithGemini` from src/lib/llm.ts with the model capability as an
input function from the payload to its reply. -/
def extractWithGemini (modelReply : String → ModelReply) (opts : ExtractionOptions) :
    ExtractionResult :=
  let etype := sdkSelectType opts.extractionType opts.schema
  let reply := modelReply (sdkPayload opts)
  { data := sdkParseRecovery reply.text
    model := "gemini-2.5-flash-lite"
    tokensUsed := reply.totalTokenCount
    extractionType := etype }

/-- `extractWithGeminiRest` from src/lib/llm.ts, likewise. -/
def extractWithGeminiRest (modelReply : String → ModelReply) (opts : ExtractionOptions) :
    ExtractionResult :=
  let etype := restSelectType opts.extractionType opts.schema
  let reply := modelReply (restPayload opts)
  { data := restParseRecovery reply.text
    model := "gemini-2.5-flash-lite"
    tokensUsed := reply.totalTokenCount
    extractionType := etype }

/-! ## The /extract route -/

/-- The envelope the `/extract` route returns. -/
inductive ApiOutcome where
  | success (data : Json) (url title model : String) (tokensUsed : Option Nat)
  | failure (code message : String) (status : Nat)

/-- The error-code/status mapping of the route's catch block. -/
def errorCodeStatus (msg : String) : String × Nat :=
  if strIncludes msg "Navigation timeout" then ("TIMEOUT_ERROR", 504)
  else if strIncludes msg "net::ERR_" then ("NETWORK_ERROR", 502)
  else if strIncludes msg "Gemini API error" then ("LLM_ERROR", 502)
  else ("INTERNAL_ERROR", 500)

/-- The `/extract` handler after request validation: scrape, then extract with
the model; an error thrown while scraping is caught and mapped to an error
envelope, and in that case the model capability is never consulted. -/
def handleExtract (response : HttpResponse) (url : String) (schema : Option Json)
    (modelReply : String → ModelReply) : ApiOutcome :=
  match scrapeUrl response url with
  | .error msg => .failure (errorCodeStatus msg).1 msg (errorCodeStatus msg).2
  | .ok r =>
    let er := extractWithGemini modelReply
      { markdown := r.markdown, schema := schema, title := r.title, extractionType := none }
    .success er.data r.url r.title er.model er.tokensUsed

/-! ## General lemmas about the replace machinery -/

theorem guarded_ne {g c : Char} (body : Chars → Option (Chars × Chars)) (cs : Chars)
    (h : c ≠ g) : guarded g body (c :: cs) = none := by
  simp [guarded, h]

theorem replaceScan_guarded_id (g : Char) (body : Chars → Option (Chars × Chars)) :
    ∀ (fuel : Nat) (s : Chars), (∀ c ∈ s, c ≠ g) → replaceScan (guarded g body) fuel s = s := by
  intro fuel
  induction fuel with
  | zero => intro s _; rfl
  | succ n ih =>
    intro s hs
    cases s with
    | nil => rfl
    | cons c cs =>
      have hc : c ≠ g := hs c (List.mem_cons_self c cs)
      simp only [replaceScan, guarded_ne body cs hc]
      exact congrArg (c :: ·) (ih cs fun d hd => hs d (List.mem_cons_of_mem c hd))

theorem runReplace_guarded_id (g : Char) (body : Chars → Option (Chars × Chars))
    (s : Chars) (hs : ∀ c ∈ s, c ≠ g) : runReplace (guarded g body) s = s :=
  replaceScan_guarded_id g body s.length s hs

theorem mem_replaceScan (m : Chars → Option (Chars × Chars)) (P : Char → Prop)
    (hm : ∀ s rep rest, m s = some (rep, rest) → (∀ c ∈ rep, P c) ∧ (∀ c ∈ rest, c ∈ s)) :
    ∀ (fuel : Nat) (s : Chars) (c : Char), c ∈ replaceScan m fuel s → c ∈ s ∨ P c := by
  intro fuel
  induction fuel with
  | zero => intro s c hc; exact .inl hc
  | succ n ih =>
    intro s c hc
    cases s with
    | nil => simp [replaceScan] at hc
    | cons a cs =>
      cases hma : m (a :: cs) with
      | none =>
        simp only [replaceScan, hma] at hc
        rcases List.mem_cons.1 hc with h | h
        · exact .inl (List.mem_cons.2 (.inl h))
        · rcases ih cs c h with h2 | h2
          · exact .inl (List.mem_cons_of_mem a h2)
          · exact .inr h2
      | some pr =>
        obtain ⟨rep, rest⟩ := pr
        simp only [replaceScan, hma] at hc
        rcases List.mem_append.1 hc with h | h
        · exact .inr ((hm _ _ _ hma).1 c h)
        · rcases ih rest c h with h2 | h2
          · exact .inl ((hm _ _ _ hma).2 c h2)
          · exact .inr h2

/-! ## Lemmas about the cleanup passes -/

theorem mem_collapseNL (s : Chars) (c : Char) (hc : c ∈ collapseNL s) : c ∈ s ∨ c = '\n' := by
  refine mem_replaceScan (guarded '\n' nlRunBody) (fun c => c = '\n') ?_ s.length s c hc
  intro t rep rest hmt
  cases t with
  | nil => simp [guarded] at hmt
  | cons a ct =>
    by_cases ha : a = '\n'
    · subst ha
      simp only [guarded, if_pos rfl] at hmt
      unfold nlRunBody at hmt
      by_cases h2 : 2 ≤ (ct.takeWhile (fun c => c = '\n')).length
      · rw [if_pos h2] at hmt
        injection hmt with hmt2
        obtain ⟨hrep, hrest⟩ := Prod.mk.injEq .. ▸ hmt2
        constructor
        · intro d hd
          rw [← hrep] at hd
          simpa using hd
        · intro d hd
          rw [← hrest] at hd
          exact List.mem_cons_of_mem _ ((List.dropWhile_sublist _).subset hd)
      · rw [if_neg h2] at hmt
        cases hmt
    · rw [guarded_ne _ _ ha] at hmt
      cases hmt

theorem mem_trimJs (s : Chars) (c : Char) (hc : c ∈ trimJs s) : c ∈ s := by
  unfold trimJs at hc
  rw [List.mem_reverse] at hc
  have h1 := (List.dropWhile_sublist _).subset hc
  rw [List.mem_reverse] at h1
  exact (List.dropWhile_sublist _).subset h1

theorem stripTrailStep_eq (c : Char) (st : Chars × Bool) :
    stripTrailStep c st =
      if (isHWS c && st.2) = true then st else (c :: st.1, isLineTerm c) := rfl

theorem stripTrail_subset : ∀ s : Chars, (s.foldr stripTrailStep ([], true)).1 ⊆ s := by
  intro s
  induction s with
  | nil => simp
  | cons a t ih =>
    rw [List.foldr_cons]
    rw [stripTrailStep_eq]
    by_cases h : (isHWS a && (t.foldr stripTrailStep ([], true)).2) = true
    · rw [if_pos h]
      exact fun c hm => List.mem_cons_of_mem a (ih hm)
    · rw [if_neg h]
      intro c hm
      rcases List.mem_cons.1 hm with h2 | h2
      · exact List.mem_cons.2 (.inl h2)
      · exact List.mem_cons_of_mem a (ih h2)

theorem mem_stripTrailingWS (s : Chars) (c : Char) (hc : c ∈ stripTrailingWS s) : c ∈ s :=
  stripTrail_subset s hc

theorem mem_collapseHWS : ∀ (s : Chars) (c : Char), c ∈ collapseHWS s → c ∈ s ∨ c = ' ' := by
  intro s
  induction s with
  | nil => intro c hc; simp [collapseHWS] at hc
  | cons a t ih =>
    intro c hc
    cases t with
    | nil =>
      simp only [collapseHWS] at hc
      by_cases ha : isHWS a = true
      · rw [if_pos ha] at hc
        simp at hc
        exact .inr hc
      · rw [if_neg ha] at hc
        simp at hc
        exact .inl (by simp [hc])
    | cons b u =>
      simp only [collapseHWS] at hc
      by_cases ha : isHWS a = true
      · rw [if_pos ha] at hc
        by_cases hb : isHWS b = true
        · rw [if_pos hb] at hc
          rcases ih c hc with h | h
          · exact .inl (List.mem_cons_of_mem a h)
          · exact .inr h
        · rw [if_neg hb] at hc
          rcases List.mem_cons.1 hc with h | h
          · exact .inr h
          · rcases ih c h with h2 | h2
            · exact .inl (List.mem_cons_of_mem a h2)
            · exact .inr h2
      · rw [if_neg ha] at hc
        rcases List.mem_cons.1 hc with h | h
        · exact .inl (List.mem_cons.2 (.inl h))
        · rcases ih c h with h2 | h2
          · exact .inl (List.mem_cons_of_mem a h2)
          · exact .inr h2

theorem cleanupPhase_mem (y : Chars) (c : Char) (hc : c ∈ cleanupPhase y) :
    c ∈ y ∨ c = '\n' ∨ c = ' ' := by
  unfold cleanupPhase at hc
  rcases mem_collapseHWS _ c hc with h | h
  · have h2 := mem_stripTrailingWS _ c h
    have h3 := mem_trimJs _ c h2
    rcases mem_collapseNL y c h3 with h4 | h4
    · exact .inl h4
    · exact .inr (.inl h4)
  · exact .inr (.inr h)

theorem replacePhase_id (s : Chars) (hlt : ∀ c ∈ s, c ≠ '<') (hamp : ∀ c ∈ s, c ≠ '&') :
    replacePhase s = s := by
  have hL : ∀ body, runReplace (guarded '<' body) s = s :=
    fun body => runReplace_guarded_id '<' body s hlt
  have hA : ∀ body, runReplace (guarded '&' body) s = s :=
    fun body => runReplace_guarded_id '&' body s hamp
  unfold replacePhase
  simp only [hL, hA]

/-! ## The trailing-whitespace invariant of the cleanup -/

/-- No space/tab immediately before a line terminator or at the very end. -/
def noHwsAtEol : Chars → Bool
  | [] => true
  | [c] => !(isHWS c)
  | c :: d :: cs => (!(isHWS c && isLineTerm d)) && noHwsAtEol (d :: cs)

/-- No line of the text (split at newlines, the final line included) ends in a
space or tab. -/
def linesClean : Chars → Bool
  | [] => true
  | [c] => !(isHWS c)
  | c :: d :: cs => (!(isHWS c && d = '\n')) && linesClean (d :: cs)

/-- The head of the list is a line terminator, or the list is empty: the
boundary flag maintained by `stripTrailStep`. -/
def headTermOrEmpty : Chars → Bool
  | [] => true
  | c :: _ => isLineTerm c

theorem stripTrail_inv : ∀ s : Chars,
    noHwsAtEol (s.foldr stripTrailStep ([], true)).1 = true ∧
    (s.foldr stripTrailStep ([], true)).2 =
      headTermOrEmpty (s.foldr stripTrailStep ([], true)).1 := by
  intro s
  induction s with
  | nil => exact ⟨rfl, rfl⟩
  | cons a t ih =>
    obtain ⟨h1, h2⟩ := ih
    rw [List.foldr_cons, stripTrailStep_eq]
    by_cases h : (isHWS a && (t.foldr stripTrailStep ([], true)).2) = true
    · rw [if_pos h]
      exact ⟨h1, h2⟩
    · rw [if_neg h]
      constructor
      · cases hh : (t.foldr stripTrailStep ([], true)).1 with
        | nil =>
          have hs2 : (t.foldr stripTrailStep ([], true)).2 = true := by
            rw [h2, hh]; rfl
          have ha : isHWS a = false := by
            rcases Bool.eq_false_or_eq_true (isHWS a) with htr | hf
            · exact absurd (by rw [htr, hs2]; rfl) h
            · exact hf
          simp [noHwsAtEol, ha]
        | cons d u =>
          have h1' : noHwsAtEol (d :: u) = true := hh ▸ h1
          have hterm : (isHWS a && isLineTerm d) = false := by
            rcases Bool.eq_false_or_eq_true (isHWS a) with htr | hf
            · have hds : (t.foldr stripTrailStep ([], true)).2 = isLineTerm d := by
                rw [h2, hh]; rfl
              rcases Bool.eq_false_or_eq_true (isLineTerm d) with dtr | df
              · exact absurd (by rw [htr, hds, dtr]; rfl) h
              · simp [df]
            · simp [hf]
          simp only [noHwsAtEol, hterm, h1', Bool.not_false, Bool.and_self]
      · cases (t.foldr stripTrailStep ([], true)).1 <;> rfl

theorem collapseHWS_cons_of_not_hws (d : Char) (cs : Chars) (hd : isHWS d = false) :
    ∃ t, collapseHWS (d :: cs) = d :: t := by
  cases cs with
  | nil => exact ⟨[], by simp [collapseHWS, hd]⟩
  | cons e u => exact ⟨collapseHWS (e :: u), by simp [collapseHWS, hd]⟩

theorem linesClean_cons (c : Char) (xs : Chars) (hc : isHWS c = false)
    (h : linesClean xs = true) : linesClean (c :: xs) = true := by
  cases xs with
  | nil => simp [linesClean, hc]
  | cons d u => simp only [linesClean, hc, h, Bool.false_and, Bool.not_false, Bool.true_and]

theorem linesClean_collapseHWS : ∀ xs : Chars, noHwsAtEol xs = true →
    linesClean (collapseHWS xs) = true := by
  intro xs
  induction xs with
  | nil => intro _; rfl
  | cons a t ih =>
    intro h
    cases t with
    | nil =>
      have ha : isHWS a = false := by simpa [noHwsAtEol] using h
      simp [collapseHWS, ha, linesClean]
    | cons b u =>
      simp only [noHwsAtEol, Bool.and_eq_true] at h
      obtain ⟨hna, h2⟩ := h
      have h0 : (isHWS a && isLineTerm b) = false := by
        rcases Bool.eq_false_or_eq_true (isHWS a && isLineTerm b) with htr | hf
        · rw [htr] at hna
          cases hna
        · exact hf
      by_cases ha : isHWS a = true
      · have hb' : isLineTerm b = false := by
          rcases Bool.eq_false_or_eq_true (isLineTerm b) with htr | hf
          · rw [ha, htr] at h0
            cases h0
          · exact hf
        by_cases hb : isHWS b = true
        · have hcol : collapseHWS (a :: b :: u) = collapseHWS (b :: u) := by
            simp only [collapseHWS, if_pos ha, if_pos hb]
          rw [hcol]
          exact ih h2
        · have hbn : isHWS b = false := by simpa using hb
          obtain ⟨t2, ht2⟩ := collapseHWS_cons_of_not_hws b u hbn
          have hcol : collapseHWS (a :: b :: u) = ' ' :: collapseHWS (b :: u) := by
            simp only [collapseHWS, if_pos ha, if_neg hb]
          have hbne : ¬(b = '\n') := by
            intro hbe
            rw [hbe] at hb'
            simp [isLineTerm] at hb'
          have hlc : linesClean (b :: t2) = true := ht2 ▸ ih h2
          rw [hcol, ht2]
          simp only [linesClean, hlc, Bool.and_true]
          simp [isHWS, hbne]
      · have han : isHWS a = false := by simpa using ha
        have hcol : collapseHWS (a :: b :: u) = a :: collapseHWS (b :: u) := by
          simp only [collapseHWS, if_neg ha]
        rw [hcol]
        exact linesClean_cons a _ han (ih h2)

theorem cleanupPhase_linesClean (y : Chars) : linesClean (cleanupPhase y) = true := by
  unfold cleanupPhase
  exact linesClean_collapseHWS _ (stripTrail_inv (trimJs (collapseNL y))).1

/-! ## Lemmas about title and body extraction -/

/-- Case-insensitive substring containment: some suffix starts with `pat`. -/
def containsCI (pat : Chars) : Chars → Bool
  | [] => (dropPrefixCI pat []).isSome
  | c :: cs => (dropPrefixCI pat (c :: cs)).isSome || containsCI pat cs

theorem titleMatchAt_none (s : Chars) (h : (dropPrefixCI "<title".data s).isSome = false) :
    titleMatchAt s = none := by
  cases s with
  | nil => rfl
  | cons c r =>
    by_cases hc : c = '<'
    · subst hc
      have hpre : dropPrefixCI "<title".data ('<' :: r) = dropPrefixCI "title".data r := rfl
      rw [hpre] at h
      have hnone : dropPrefixCI "title".data r = none := by
        cases hd : dropPrefixCI "title".data r with
        | none => rfl
        | some x => rw [hd] at h; cases h
      simp [titleMatchAt, hnone]
    · simp [titleMatchAt, hc]

theorem findTitle_none : ∀ (fuel : Nat) (s : Chars),
    containsCI "<title".data s = false → findTitle fuel s = none := by
  intro fuel
  induction fuel with
  | zero => intro s _; rfl
  | succ n ih =>
    intro s hs
    cases s with
    | nil => rfl
    | cons c cs =>
      simp only [containsCI, Bool.or_eq_false_iff] at hs
      obtain ⟨h1, h2⟩ := hs
      simp only [findTitle, titleMatchAt_none _ h1, ih cs h2]

theorem bodyMatchAt_none (s : Chars) (h : (dropPrefixCI "<body".data s).isSome = false) :
    bodyMatchAt s = none := by
  cases s with
  | nil => rfl
  | cons c r =>
    by_cases hc : c = '<'
    · subst hc
      have hpre : dropPrefixCI "<body".data ('<' :: r) = dropPrefixCI "body".data r := rfl
      rw [hpre] at h
      have hnone : dropPrefixCI "body".data r = none := by
        cases hd : dropPrefixCI "body".data r with
        | none => rfl
        | some x => rw [hd] at h; cases h
      simp [bodyMatchAt, hnone]
    · simp [bodyMatchAt, hc]

theorem findBody_none : ∀ (fuel : Nat) (s : Chars),
    containsCI "<body".data s = false → findBody fuel s = none := by
  intro fuel
  induction fuel with
  | zero => intro s _; rfl
  | succ n ih =>
    intro s hs
    cases s with
    | nil => rfl
    | cons c cs =>
      simp only [containsCI, Bool.or_eq_false_iff] at hs
      obtain ⟨h1, h2⟩ := hs
      simp only [findBody, bodyMatchAt_none _ h1, ih cs h2]

theorem extractTitle_untitled (html : String)
    (h : containsCI "<title".data html.data = false) : extractTitle html = "Untitled" := by
  unfold extractTitle
  rw [findTitle_none _ _ h]

theorem extractBody_id (html : String)
    (h : containsCI "<body".data html.data = false) : extractBody html = html := by
  unfold extractBody
  rw [findBody_none _ _ h]

/-- Unfolding `htmlToMarkdown` at the `String` level. -/
theorem htmlToMarkdown_def (s : String) :
    htmlToMarkdown s = ⟨cleanupPhase (replacePhase s.data)⟩ := rfl

theorem htmlToMarkdown_data (s : String) :
    (htmlToMarkdown s).data = cleanupPhase (replacePhase s.data) := by
  rw [htmlToMarkdown_def]

/-! ## Claim theorems -/

/-- C1: the spec says `<ol><li>A</li><li>B</li></ol>` normalizes to the lines
`1. A` then `2. B`.  The code instead returns the template literal from a
replacement function, so `$1` is never substituted: evaluating the converter at
that exact input yields the lines `1. $1` and `2. $1`, dropping the item text
(the 1-based per-list numbering itself does work). -/
theorem orderedListItemsLoseText :
    htmlToMarkdown "<ol><li>A</li><li>B</li></ol>" = "1. $1\n2. $1" := rfl

/-- C2 counterexample: the output of the normalizer is not free of angle
brackets for every input — entity decoding runs after tag stripping, so the
input `&lt;` produces the output `<`. -/
theorem normalizerEmitsAngleFromEntity :
    htmlToMarkdown "&lt;" = "<" ∧ '<' ∈ (htmlToMarkdown "&lt;").data := by
  refine ⟨rfl, ?_⟩
  rw [show htmlToMarkdown "&lt;" = "<" from rfl]
  decide

/-- C2 (amended): the tag passes and the whitespace cleanup introduce no angle
brackets; `<`/`>` in the output can only come from angle brackets or entity
references already in the input.  For every input free of `<`, `>` and `&`,
the output contains no `<` and no `>`. -/
theorem normalizerNoAngleForSafeInputs (s : String)
    (hs : ∀ c ∈ s.data, c ≠ '<' ∧ c ≠ '>' ∧ c ≠ '&') :
    ∀ c ∈ (htmlToMarkdown s).data, c ≠ '<' ∧ c ≠ '>' := by
  intro c hc
  rw [htmlToMarkdown_data,
    replacePhase_id s.data (fun d hd => (hs d hd).1) (fun d hd => (hs d hd).2.2)] at hc
  rcases cleanupPhase_mem _ c hc with h | h | h
  · exact ⟨(hs c h).1, (hs c h).2.1⟩
  · subst h; exact ⟨by decide, by decide⟩
  · subst h; exact ⟨by decide, by decide⟩

/-- C2 witness: the amended statement at a concrete angle- and
ampersand-free input. -/
theorem normalizerNoAngleForSafeInputs_witness :
    '<' ∉ (htmlToMarkdown "hello  world").data ∧ '>' ∉ (htmlToMarkdown "hello  world").data :=
  ⟨fun hm => (normalizerNoAngleForSafeInputs "hello  world" (by decide) '<' hm).1 rfl,
   fun hm => (normalizerNoAngleForSafeInputs "hello  world" (by decide) '>' hm).2 rfl⟩

/-- C3 counterexample: the newline collapse runs before the per-line
trailing-whitespace strip, so deleting a whitespace-only line between blank
lines recreates a run of four newlines. -/
theorem normalizerTripleNewlineSurvives :
    htmlToMarkdown "a\n\n \n\nb" = "a\n\n\n\nb" ∧
    containsSub ['\n', '\n', '\n'] (htmlToMarkdown "a\n\n \n\nb").data = true := by
  refine ⟨rfl, ?_⟩
  rw [show htmlToMarkdown "a\n\n \n\nb" = "a\n\n\n\nb" from rfl]
  decide

/-- C3 (amended): for every input, no line of the normalizer output ends in a
space or tab (the 3-plus-newline bound of the claim is dropped: it can be
violated, as the counterexample shows). -/
theorem normalizerNoTrailingLineWhitespace (s : String) :
    linesClean (htmlToMarkdown s).data = true := by
  rw [htmlToMarkdown_data]
  exact cleanupPhase_linesClean _

/-- C4: when structured parsing of the cleaned model text fails, the SDK
extraction still returns a result whose data is exactly
`{ rawExtraction: <original text>, parseError: <marker> }` — no exception. -/
theorem parseFailureRecovered (modelReply : String → ModelReply) (opts : ExtractionOptions)
    (h : parseJson (cleanFence (modelReply (sdkPayload opts)).text) = none) :
    (extractWithGemini modelReply opts).data =
      Json.obj (.cons "rawExtraction" (.str (modelReply (sdkPayload opts)).text)
        (.cons "parseError" (.str "Failed to parse as JSON") .nil)) := by
  show sdkParseRecovery (modelReply (sdkPayload opts)).text = _
  unfold sdkParseRecovery
  rw [h]
  rfl

/-- C4 witness: a model reply that is not structured data is wrapped. -/
theorem parseFailureRecovered_witness :
    (extractWithGemini (fun _ => ⟨"not json", none⟩)
        { markdown := "content", schema := none, title := "Title", extractionType := none }).data =
      Json.obj (.cons "rawExtraction" (.str "not json")
        (.cons "parseError" (.str "Failed to parse as JSON") .nil)) :=
  parseFailureRecovered _ _ (by rfl)

/-- C5: a non-ok fetch makes the pipeline yield the thrown
`Failed to fetch …` message as an error envelope, and the outcome does not
depend on the model capability — the model is never invoked. -/
theorem fetchFailureShortCircuits (response : HttpResponse) (url : String)
    (schema : Option Json) (m1 m2 : String → ModelReply) (h : response.ok = false) :
    handleExtract response url schema m1 =
      ApiOutcome.failure
        (errorCodeStatus ("Failed to fetch " ++ url ++ ": " ++ toString response.status ++ " " ++ response.statusText)).1
        ("Failed to fetch " ++ url ++ ": " ++ toString response.status ++ " " ++ response.statusText)
        (errorCodeStatus ("Failed to fetch " ++ url ++ ": " ++ toString response.status ++ " " ++ response.statusText)).2 ∧
    handleExtract response url schema m1 = handleExtract response url schema m2 := by
  have hs : scrapeUrl response url =
      .error ("Failed to fetch " ++ url ++ ": " ++ toString response.status ++ " " ++ response.statusText) := by
    unfold scrapeUrl
    rw [h]
    rfl
  constructor
  · unfold handleExtract
    rw [hs]
  · unfold handleExtract
    rw [hs]

/-- C5 witness: an HTTP 404 yields the fetch-failure envelope, independently of
the model function. -/
theorem fetchFailureShortCircuits_witness :
    handleExtract ⟨false, 404, "Not Found", ""⟩ "https://example.com" none (fun _ => ⟨"", none⟩) =
      ApiOutcome.failure "INTERNAL_ERROR" "Failed to fetch https://example.com: 404 Not Found" 500 := by
  have h := (fetchFailureShortCircuits ⟨false, 404, "Not Found", ""⟩ "https://example.com" none
    (fun _ => ⟨"", none⟩) (fun _ => ⟨"x", none⟩) rfl).1
  rw [h]
  rfl

/-- C6: the classifier is deterministic (equal inputs give equal outputs) and
total, always returning one of the eight profiles. -/
theorem classifierTotalDeterministic :
    (∀ s t : Option Json, s = t → detectExtractionType s = detectExtractionType t) ∧
    (∀ s : Option Json,
      detectExtractionType s = .auto ∨ detectExtractionType s = .article ∨
      detectExtractionType s = .product ∨ detectExtractionType s = .contact ∨
      detectExtractionType s = .event ∨ detectExtractionType s = .job ∨
      detectExtractionType s = .recipe ∨ detectExtractionType s = .review) := by
  constructor
  · intro s t h
    rw [h]
  · intro s
    cases s with
    | none => exact .inl rfl
    | some j =>
      show (detectExtractionType (some j) = .auto ∨ _)
      unfold detectExtractionType
      dsimp only
      split_ifs <;> decide

/-- C6 witness: the classifier at a concrete schema. -/
theorem classifierTotalDeterministic_witness :
    detectExtractionType (some (Json.obj (.cons "ingredients" (.str "list") .nil))) =
      detectExtractionType (some (Json.obj (.cons "ingredients" (.str "list") .nil))) ∧
    (detectExtractionType (some (Json.obj (.cons "ingredients" (.str "list") .nil))) = .auto ∨
      detectExtractionType (some (Json.obj (.cons "ingredients" (.str "list") .nil))) = .article ∨
      detectExtractionType (some (Json.obj (.cons "ingredients" (.str "list") .nil))) = .product ∨
      detectExtractionType (some (Json.obj (.cons "ingredients" (.str "list") .nil))) = .contact ∨
      detectExtractionType (some (Json.obj (.cons "ingredients" (.str "list") .nil))) = .event ∨
      detectExtractionType (some (Json.obj (.cons "ingredients" (.str "list") .nil))) = .job ∨
      detectExtractionType (some (Json.obj (.cons "ingredients" (.str "list") .nil))) = .recipe ∨
      detectExtractionType (some (Json.obj (.cons "ingredients" (.str "list") .nil))) = .review) :=
  ⟨classifierTotalDeterministic.1 _ _ rfl, classifierTotalDeterministic.2 _⟩

/-- C7: any schema whose lowercased serialization contains "price" classifies
as product, whatever else it contains — rule 1 is tested before rule 7 and the
first match wins. -/
theorem priceKeywordWinsPriority (j : Json)
    (h : strIncludes (lowerStr (stringify j)) "price" = true) :
    detectExtractionType (some j) = .product := by
  unfold detectExtractionType
  simp [h]

/-- C7 witness: a schema with "price" and "rating"+"review" is product. -/
theorem priceKeywordWinsPriority_witness :
    detectExtractionType (some (Json.obj (.cons "price" (.str "string")
      (.cons "rating" (.num 5) (.cons "review" (.str "text") .nil))))) = .product :=
  priceKeywordWinsPriority _ (by decide)

/-- C8: normalization is a total function (the embedding is structurally
recursive), and when the document has no `<title>` element the title is the
`"Untitled"` sentinel; without a `<body>` element the whole document is
converted. -/
theorem normalizeTotalAndDefaults (html : String) :
    (containsCI "<title".data html.data = false → (normalize html).title = "Untitled") ∧
    (containsCI "<body".data html.data = false →
      (normalize html).markdownText = htmlToMarkdown html) := by
  constructor
  · intro h
    exact extractTitle_untitled html h
  · intro h
    show htmlToMarkdown (extractBody html) = htmlToMarkdown html
    rw [extractBody_id html h]

/-- C8 witness: arbitrary non-HTML text degrades gracefully. -/
theorem normalizeTotalAndDefaults_witness :
    (normalize "plain text, no markup").title = "Untitled" ∧
    (normalize "plain text, no markup").markdownText = htmlToMarkdown "plain text, no markup" :=
  ⟨(normalizeTotalAndDefaults _).1 (by decide), (normalizeTotalAndDefaults _).2 (by decide)⟩

/-- C9: entity decoding is a fixed sequence of global replacements
(`&amp;` before `&lt;`), so the doubly-escaped `&amp;lt;` is decoded twice:
the output is the literal `<` rather than the text `&lt;`. -/
theorem doubleEscapedEntityOverDecoded :
    htmlToMarkdown "&amp;lt;" = "<" ∧ '<' ∈ (htmlToMarkdown "&amp;lt;").data := by
  refine ⟨rfl, ?_⟩
  rw [show htmlToMarkdown "&amp;lt;" = "<" from rfl]
  decide

/-- C10: the SDK and REST paths agree on profile selection, compose
character-identical payloads, use equal generation settings, and apply the
same fence-stripping/parse-recovery to the response text. -/
theorem sdkRestEquivalent (requestedType : Option ExtractionType) (schema : Option Json)
    (title markdown text : String) :
    restSelectType requestedType schema = sdkSelectType requestedType schema ∧
    restPayload { markdown := markdown, schema := schema, title := title,
                  extractionType := requestedType } =
      sdkPayload { markdown := markdown, schema := schema, title := title,
                   extractionType := requestedType } ∧
    restGenerationConfig = sdkGenerationConfig ∧
    restParseRecovery text = sdkParseRecovery text :=
  ⟨rfl, rfl, rfl, rfl⟩

end UniversalReadApi
